import Mathlib

/-!
Shallow embedding of the Discord summarization cog
(`src/cogs/summary.py`, class `MessageFetcher`).

The channel history is modelled as a finite list of messages in the order
the SDK yields them: newest first.  Async iteration over `channel.history`
becomes structural recursion / list combinators over that list; the
transport layer (which may raise) is modelled with `Except`.  The LLM
client is an external collaborator and is modelled as a function parameter
returning `Except` (error = an exception escaping `_call_llm`).
-/

namespace SummaryBot

/-- A Discord user / member: the fields the cog reads
(`author.id`, `author.name`, `author.bot`, `user.mention`). -/
structure User where
  id : Nat
  name : String
  bot : Bool
  mention : String
  deriving DecidableEq, Repr

/-- A message embed; the cog only reads `embed.description`
(`None` modelled as `none`). -/
structure Embed where
  description : Option String
  deriving DecidableEq, Repr

/-- A message attachment; the cog only reads `att.url`. -/
structure Attachment where
  url : String
  deriving DecidableEq, Repr

/-- One historical chat message, with the fields the cog reads. -/
structure Message where
  author : User
  content : String
  embeds : List Embed
  attachments : List Attachment
  deriving DecidableEq, Repr

/-- Worker for `pytokens`: `cur` holds the characters of the token being
built, in reverse. -/
def pytokensAux : List Char → List Char → List String
  | cur, [] => if cur.isEmpty then [] else [⟨cur.reverse⟩]
  | cur, c :: rest =>
    if c.isWhitespace then
      if cur.isEmpty then pytokensAux [] rest
      else ⟨cur.reverse⟩ :: pytokensAux [] rest
    else pytokensAux (c :: cur) rest

/-- Python `str.strip().split()`: split on whitespace runs, dropping
empty pieces (so leading/trailing whitespace is irrelevant). -/
def pytokens (s : String) : List String := pytokensAux [] s.toList

/-- Python `str.startswith(pre)`. -/
def pyStartsWith (s pre : String) : Bool := pre.toList.isPrefixOf s.toList

/-- Digit run of Python `int()`, allowing a single `_` between two digits
(`"1_0"` parses, `"1__0"`, `"1_"` do not).  `acc` is the value so far. -/
def pyDigitsAux : Nat → List Char → Option Nat
  | acc, [] => some acc
  | acc, c :: rest =>
    if c.isDigit then pyDigitsAux (10 * acc + (c.toNat - 48)) rest
    else if c = '_' then
      match rest with
      | c2 :: rest2 =>
        if c2.isDigit then pyDigitsAux (10 * acc + (c2.toNat - 48)) rest2 else none
      | [] => none
    else none

/-- Python `int(s)` on a whitespace-free token: optional sign, then a
digit run (underscores allowed between digits).  `none` models the
`ValueError` raised on any other input. -/
def pyInt (s : String) : Option Int :=
  let cs := s.toList
  let signed : Int × List Char :=
    match cs with
    | '+' :: r => (1, r)
    | '-' :: r => (-1, r)
    | r => (1, r)
  match signed.2 with
  | c :: _ =>
    if c.isDigit then (pyDigitsAux 0 signed.2).map (fun n => signed.1 * n) else none
  | [] => none

/-- `MessageFetcher._parse_args` (summary.py lines 82–108).

Returns `(history_count, target_user, delivered_notices)`.

`delivered_notices` lists the messages this function actually delivers to
the channel.  In the source, the `ValueError` branch calls
`ctx.send("你輸入的不是數字，將自動總結最近 20 則消息。")` WITHOUT `await`:
the coroutine object is created and discarded, so nothing is sent — hence
the list is `[]` on every path. -/
def parse_args (prompt : String) (mentions : List User) :
    Int × Option User × List String :=
  let args := pytokens prompt
  match args with
  | [] => (20, none, [])
  | a0 :: restArgs =>
    match pyInt a0 with
    | some k =>
      -- 若還有剩餘參數，嘗試取得 mentioned_user (`len(args) > 1 and ctx.message.mentions`)
      let target_user := if restArgs ≠ [] ∧ mentions ≠ [] then mentions.head? else none
      (k, target_user, [])
    | none =>
      -- `ctx.send(...)` un-awaited: no notice delivered
      let target_user := if mentions ≠ [] then mentions.head? else none
      (20, target_user, [])

/-- The exclusion predicate of `_fetch_messages`:
`not msg.author.bot and not msg.content.startswith("!sum")`. -/
def keeps (msg : Message) : Bool :=
  !msg.author.bot && !(pyStartsWith msg.content "!sum")

/-- The user-filter of the `target_user` branch:
`msg.author.id == target_user.id and not msg.author.bot and not
msg.content.startswith("!sum")`. -/
def keepsFor (target : User) (msg : Message) : Bool :=
  msg.author.id == target.id && keeps msg

/-- The `async for` loop of the `target_user` branch of `_fetch_messages`
(lines 126–134): scan newest-to-oldest, append qualifying messages,
`break` when `len(messages) == history_count` right after an append. -/
def fetch_loop (target : User) (history_count : Int) :
    List Message → List Message → List Message
  | acc, [] => acc
  | acc, msg :: rest =>
    if keepsFor target msg then
      let acc2 := acc ++ [msg]
      if (acc2.length : Int) = history_count then acc2
      else fetch_loop target history_count acc2 rest
    else fetch_loop target history_count acc rest

/-- `MessageFetcher._fetch_messages` (lines 110–143).  `history` is the
channel history newest-first, as `channel.history` yields it.
`channel.history(limit=history_count)` yields at most `history_count`
raw messages, i.e. `history.take history_count.toNat`. -/
def fetch_messages (history : List Message) (history_count : Int)
    (target_user : Option User) : List Message :=
  let messages :=
    match target_user with
    | some target => fetch_loop target history_count [] history
    | none => (history.take history_count.toNat).filter keeps
  -- 依照訊息時間做排序（由舊到新）
  messages.reverse

/-- The comprehension
`[embed.description for embed in msg.embeds if embed.description]`
(line 164): keep only truthy descriptions — present and non-empty. -/
def truthyDescriptions (embeds : List Embed) : List String :=
  embeds.filterMap (fun e =>
    match e.description with
    | some d => if d ≠ "" then some d else none
    | none => none)

/-- Per-message content of `_format_messages` (lines 160–175): the line
content together with the reference strings extended onto `attachments`. -/
def msg_content_refs (msg : Message) : String × List String :=
  if msg.embeds ≠ [] then
    -- 取出 embed 的描述 (`if embed.description` keeps only truthy ones)
    let embed_descriptions := truthyDescriptions msg.embeds
    ("嵌入內容: " ++ String.intercalate ", " embed_descriptions, embed_descriptions)
  else if msg.attachments ≠ [] then
    -- 取出附件 URL
    let attachment_urls := msg.attachments.map Attachment.url
    ("附件: " ++ String.intercalate ", " attachment_urls, attachment_urls)
  else
    (msg.content, [])

/-- `MessageFetcher._format_messages` (lines 145–180): build the
newline-joined transcript and the accumulated reference list. -/
def format_messages (messages : List Message) : String × List String :=
  let folded := messages.foldl
    (fun (st : List String × List String) msg =>
      let cr := msg_content_refs msg
      (st.1 ++ [msg.author.name ++ ": " ++ cr.1], st.2 ++ cr.2))
    ([], [])
  (String.intercalate "\n" folded.1, folded.2)

/-- `MessageFetcher._create_summary_prompt` (lines 182–194):
`SUMMARY_MESSAGE.format(history_count=…, chat_history_string=…)` on the
template `"\n總結以下 {history_count} 則消息：\n{chat_history_string}\n"`. -/
def create_summary_prompt (history_count : Int) (chat_history_string : String) : String :=
  "\n總結以下 " ++ toString history_count ++ " 則消息：\n" ++ chat_history_string ++ "\n"

/-- `MessageFetcher.sum` (lines 33–80), the top-level command handler.

* `channelHistory`: result of iterating `ctx.channel.history`; `.error e`
  models a chat-SDK exception raised during fetch.
* `llm`: the `_call_llm` collaborator; `.error e` models an exception
  raised by the LLM call / response extraction.
* Returns the list of replies delivered to the channel via awaited
  `ctx.send`, in order. -/
def sum (channelHistory : Except String (List Message)) (mentions : List User)
    (prompt : String) (llm : String → List String → Except String String) :
    List String :=
  let parsed := parse_args prompt mentions
  let history_count := parsed.1
  let target_user := parsed.2.1
  match channelHistory with
  | Except.error e => ["發生錯誤：" ++ e]
  | Except.ok history =>
    let messages := fetch_messages history history_count target_user
    if messages.isEmpty then
      match target_user with
      | some u => ["在此頻道中找不到 " ++ u.mention ++ " 的相關訊息。"]
      | none => ["此頻道沒有可供總結的訊息。"]
    else
      let formatted := format_messages messages
      let final_prompt := create_summary_prompt history_count formatted.1
      match llm final_prompt formatted.2 with
      | Except.ok summary => [summary]
      | Except.error e => ["發生錯誤：" ++ e]

/-! ### Concrete fixtures used by counterexamples and witnesses -/

/-- A plain (non-bot) user. -/
def uAlice : User := ⟨1, "alice", false, "<@1>"⟩

/-- A second plain user. -/
def uBob : User := ⟨2, "bob", false, "<@2>"⟩

/-- A bot user. -/
def uBot : User := ⟨3, "boty", true, "<@3>"⟩

/-- An ordinary qualifying message from `uAlice`. -/
def mAlice1 : Message := ⟨uAlice, "hello", [], []⟩

/-- A second qualifying message from `uAlice`. -/
def mAlice2 : Message := ⟨uAlice, "world", [], []⟩

/-- A bot-authored message (excluded by the fetch predicate). -/
def mBot : Message := ⟨uBot, "beep", [], []⟩

/-- A message carrying one description-less embed and one attachment. -/
def mEmbNoDesc : Message := ⟨uAlice, "hi", [⟨none⟩], [⟨"http://x"⟩]⟩

/-- A message carrying one embed with the description `"d"`. -/
def mEmbD : Message := ⟨uAlice, "c", [⟨some "d"⟩], []⟩

/-- A message carrying one attachment with URL `"u1"` and no embeds. -/
def mAtt : Message := ⟨uAlice, "c", [], [⟨"u1"⟩]⟩

/-! ### Lemmas about the user-filtered fetch loop -/

theorem fetch_loop_sub (target : User) (hc : Int) :
    ∀ (l acc : List Message), ∃ l',
      fetch_loop target hc acc l = acc ++ l' ∧ l'.Sublist l := by
  intro l
  induction l with
  | nil => intro acc; exact ⟨[], by simp [fetch_loop], List.nil_sublist _⟩
  | cons m rest ih =>
    intro acc
    by_cases hk : keepsFor target m = true
    · by_cases hlen : (acc.length : Int) + 1 = hc
      · exact ⟨[m], by simp [fetch_loop, hk, hlen], (List.nil_sublist rest).cons₂ m⟩
      · obtain ⟨l', h1, h2⟩ := ih (acc ++ [m])
        refine ⟨m :: l', ?_, h2.cons₂ m⟩
        simp [fetch_loop, hk, hlen, h1]
      -- the `break` keeps the collected prefix a sublist of the scan
    · obtain ⟨l', h1, h2⟩ := ih acc
      exact ⟨l', by simp [fetch_loop, hk, h1], h2.cons m⟩

theorem fetch_loop_length_le (target : User) (hc : Int) :
    ∀ (l acc : List Message), (acc.length : Int) < hc →
      ((fetch_loop target hc acc l).length : Int) ≤ hc := by
  intro l
  induction l with
  | nil => intro acc h; simpa [fetch_loop] using le_of_lt h
  | cons m rest ih =>
    intro acc h
    by_cases hk : keepsFor target m = true
    · by_cases hlen : (acc.length : Int) + 1 = hc
      · simp [fetch_loop, hk, hlen]
      · have hlt : ((acc ++ [m]).length : Int) < hc := by
          simp only [List.length_append, List.length_cons, List.length_nil]
          omega
        have := ih (acc ++ [m]) hlt
        simpa [fetch_loop, hk, hlen] using this
    · have := ih acc h
      simpa [fetch_loop, hk] using this

theorem fetch_loop_forall (target : User) (hc : Int) :
    ∀ (l acc : List Message), (∀ m ∈ acc, keepsFor target m = true) →
      ∀ m ∈ fetch_loop target hc acc l, keepsFor target m = true := by
  intro l
  induction l with
  | nil => intro acc hacc; simpa [fetch_loop] using hacc
  | cons m rest ih =>
    intro acc hacc
    have hacc2 : keepsFor target m = true →
        ∀ x ∈ acc ++ [m], keepsFor target x = true := by
      intro hk x hx
      rcases List.mem_append.1 hx with h | h
      · exact hacc x h
      · simpa [List.mem_singleton.1 h] using hk
    by_cases hk : keepsFor target m = true
    · by_cases hlen : (acc.length : Int) + 1 = hc
      · intro x hx
        have hx2 : x ∈ acc ++ [m] := by
          rw [show fetch_loop target hc acc (m :: rest) = acc ++ [m] from by
            simp [fetch_loop, hk, hlen]] at hx
          exact hx
        exact hacc2 hk x hx2
      · intro x hx
        have hx2 : x ∈ fetch_loop target hc (acc ++ [m]) rest := by
          rw [show fetch_loop target hc acc (m :: rest) =
              fetch_loop target hc (acc ++ [m]) rest from by
            simp [fetch_loop, hk, hlen]] at hx
          exact hx
        exact ih (acc ++ [m]) (hacc2 hk) x hx2
    · intro x hx
      have hx2 : x ∈ fetch_loop target hc acc rest := by
        rw [show fetch_loop target hc acc (m :: rest) =
            fetch_loop target hc acc rest from by simp [fetch_loop, hk]] at hx
        exact hx
      exact ih acc hacc x hx2

theorem fetch_loop_nonpos (target : User) (hc : Int) (h : hc ≤ 0) :
    ∀ (l acc : List Message),
      fetch_loop target hc acc l = acc ++ l.filter (keepsFor target) := by
  intro l
  induction l with
  | nil => intro acc; simp [fetch_loop]
  | cons m rest ih =>
    intro acc
    by_cases hk : keepsFor target m = true
    · have hlen : ¬ (acc.length : Int) + 1 = hc := by omega
      simp [fetch_loop, hk, hlen, ih, List.filter_cons]
    · simp [fetch_loop, hk, ih, List.filter_cons]

/-! ### Claim theorems: message fetching -/

/-- Claim C10: `history_count` is never validated as positive; for every
user-filtered fetch invoked with `history_count ≤ 0` the stop condition
(collected length equals `history_count`) can never fire after an append,
so the scan traverses the entire channel history and returns ALL qualifying
messages from the target user (oldest-first) rather than none. -/
theorem fetch_nonpositive_count_returns_all (hist : List Message) (u : User)
    (hc : Int) (h : hc ≤ 0) :
    fetch_messages hist hc (some u) = (hist.filter (keepsFor u)).reverse := by
  have hloop := fetch_loop_nonpos u hc h hist []
  simp [fetch_messages, hloop]

/-- Witness for C10 at `history_count = 0` on a two-message channel. -/
theorem fetch_nonpositive_count_returns_all_witness :
    (0 : Int) ≤ 0 ∧
      fetch_messages [mAlice1, mAlice2] 0 (some uAlice) =
        (([mAlice1, mAlice2].filter (keepsFor uAlice)).reverse) :=
  ⟨le_refl 0, fetch_nonpositive_count_returns_all [mAlice1, mAlice2] uAlice 0 (le_refl 0)⟩

/-- Claim C5, counterexample: with `history_count = 0` (reachable, since the
parser never validates positivity) a user-filtered fetch of a channel holding
one qualifying message returns that message, so the claimed bound
"length ≤ history_count" fails. -/
theorem fetch_filtered_bound_fails_at_zero :
    ¬ (((fetch_messages [mAlice1] 0 (some uAlice)).length : Int) ≤ 0) := by decide

/-- Claim C5 (amended with the hypothesis `1 ≤ history_count`): every
returned message is authored by the target, by a non-bot account, and does
not start with the invocation prefix; the count is at most `history_count`;
and the sequence is oldest-first (a sublist of the reversed newest-first
scan order). -/
theorem fetch_filtered_spec (hist : List Message) (hc : Int) (u : User)
    (h : 1 ≤ hc) :
    (∀ m ∈ fetch_messages hist hc (some u),
        m.author.id = u.id ∧ m.author.bot = false ∧
          pyStartsWith m.content "!sum" = false) ∧
    ((fetch_messages hist hc (some u)).length : Int) ≤ hc ∧
    (fetch_messages hist hc (some u)).Sublist hist.reverse := by
  refine ⟨?_, ?_, ?_⟩
  · intro m hm
    have hmem : m ∈ fetch_loop u hc [] hist := by
      simpa [fetch_messages] using hm
    have hkeep := fetch_loop_forall u hc hist [] (by simp) m hmem
    simp only [keepsFor, keeps, Bool.and_eq_true, beq_iff_eq,
      Bool.not_eq_true'] at hkeep
    exact ⟨hkeep.1, hkeep.2.1, hkeep.2.2⟩
  · have hlen : ((fetch_loop u hc [] hist).length : Int) ≤ hc :=
      fetch_loop_length_le u hc hist [] (by simpa using h)
    simpa [fetch_messages] using hlen
  · obtain ⟨l', h1, h2⟩ := fetch_loop_sub u hc hist []
    have heq : fetch_messages hist hc (some u) = l'.reverse := by
      simp [fetch_messages, h1]
    rw [heq]
    exact h2.reverse

/-- Witness for the amended C5 at `history_count = 1` on a one-message
channel. -/
theorem fetch_filtered_spec_witness :
    (1 : Int) ≤ 1 ∧
      ((∀ m ∈ fetch_messages [mAlice1] 1 (some uAlice),
          m.author.id = uAlice.id ∧ m.author.bot = false ∧
            pyStartsWith m.content "!sum" = false) ∧
        ((fetch_messages [mAlice1] 1 (some uAlice)).length : Int) ≤ 1 ∧
        (fetch_messages [mAlice1] 1 (some uAlice)).Sublist [mAlice1].reverse) :=
  ⟨le_refl 1, fetch_filtered_spec [mAlice1] 1 uAlice (le_refl 1)⟩

/-- Claim C1, counterexample: the unfiltered fetch retrieves the most recent
`history_count` RAW messages and only then filters, so when the newest
message is bot-authored the result is shorter than
`min(history_count, available qualifying messages)`:
with the channel `[mBot, mAlice1]` (newest first) and `history_count = 1`
the fetch returns 0 messages while the claimed minimum is 1. -/
theorem fetch_unfiltered_length_not_min :
    ¬ ((fetch_messages [mBot, mAlice1] 1 none).length =
        min 1 (([mBot, mAlice1].filter keeps).length)) := by decide

/-- Claim C1 (amended): for an unfiltered fetch the returned length equals
the number of non-bot non-command messages AMONG the `history_count` most
recent raw messages (hence at most `min(history_count, available qualifying
messages)`, without equality in general), every returned message qualifies,
and the sequence is ordered oldest-first. -/
theorem fetch_unfiltered_spec (hist : List Message) (hc : Int) :
    (fetch_messages hist hc none).length =
        ((hist.take hc.toNat).filter keeps).length ∧
    (fetch_messages hist hc none).length ≤
        min hc.toNat (hist.filter keeps).length ∧
    (fetch_messages hist hc none).Sublist hist.reverse ∧
    ∀ m ∈ fetch_messages hist hc none, keeps m = true := by
  refine ⟨by simp [fetch_messages], ?_, ?_, ?_⟩
  · have h1 : ((hist.take hc.toNat).filter keeps).length ≤ hc.toNat :=
      le_trans (List.length_filter_le _ _) (List.length_take_le _ _)
    have h2 : ((hist.take hc.toNat).filter keeps).length ≤
        (hist.filter keeps).length :=
      ((List.take_sublist _ _).filter _).length_le
    have : (fetch_messages hist hc none).length =
        ((hist.take hc.toNat).filter keeps).length := by simp [fetch_messages]
    rw [this]
    exact le_min h1 h2
  · have hsub : ((hist.take hc.toNat).filter keeps).Sublist hist :=
      (List.filter_sublist _).trans (List.take_sublist _ _)
    simpa [fetch_messages] using hsub.reverse
  · intro m hm
    have hmem : m ∈ (hist.take hc.toNat).filter keeps := by
      simpa [fetch_messages] using hm
    exact (List.mem_filter.1 hmem).2

/-- Witness for the amended C1 on a two-message channel whose newest
message is bot-authored. -/
theorem fetch_unfiltered_spec_witness :
    (fetch_messages [mBot, mAlice1] 2 none).length =
        (([mBot, mAlice1].take (2 : Int).toNat).filter keeps).length ∧
    (fetch_messages [mBot, mAlice1] 2 none).length ≤
        min (2 : Int).toNat ([mBot, mAlice1].filter keeps).length ∧
    (fetch_messages [mBot, mAlice1] 2 none).Sublist [mBot, mAlice1].reverse ∧
    ∀ m ∈ fetch_messages [mBot, mAlice1] 2 none, keeps m = true :=
  fetch_unfiltered_spec [mBot, mAlice1] 2

/-! ### Claim theorems: argument parsing -/

/-- Claim C6: `history_count` resolves to 20 when the token list is empty
(empty argument string) or the first token is non-numeric, and to `k` when
the first whitespace-separated token parses as the integer `k`, regardless
of further tokens. -/
theorem parse_args_history_count_spec (prompt : String) (mentions : List User) :
    (pytokens prompt = [] → (parse_args prompt mentions).1 = 20) ∧
    (∀ t ts, pytokens prompt = t :: ts → pyInt t = none →
        (parse_args prompt mentions).1 = 20) ∧
    (∀ t ts k, pytokens prompt = t :: ts → pyInt t = some k →
        (parse_args prompt mentions).1 = k) := by
  refine ⟨fun h => by simp [parse_args, h], ?_, ?_⟩
  · intro t ts h hp
    simp [parse_args, h, hp]
  · intro t ts k h hp
    simp [parse_args, h, hp]

/-- Witness for C6 on the empty string, a non-numeric first token, and a
numeric first token followed by a further token. -/
theorem parse_args_history_count_spec_witness :
    (pytokens "" = [] ∧ (parse_args "" []).1 = 20) ∧
    (pytokens "abc xyz" = "abc" :: ["xyz"] ∧ pyInt "abc" = none ∧
      (parse_args "abc xyz" []).1 = 20) ∧
    (pytokens "5 xyz" = "5" :: ["xyz"] ∧ pyInt "5" = some 5 ∧
      (parse_args "5 xyz" []).1 = 5) :=
  ⟨⟨by decide, (parse_args_history_count_spec "" []).1 (by decide)⟩,
   ⟨by decide, by decide,
     (parse_args_history_count_spec "abc xyz" []).2.1 "abc" ["xyz"]
       (by decide) (by decide)⟩,
   ⟨by decide, by decide,
     (parse_args_history_count_spec "5 xyz" []).2.2 "5" ["xyz"] 5
       (by decide) (by decide)⟩⟩

/-- Claim C3, counterexample: for the single-token numeric argument `"5"`
with the mention list `[uAlice]`, the parser leaves `target_user` unset
because of the `len(args) > 1` guard, while the claim requires it to be the
first mention. -/
theorem parse_args_single_numeric_token_ignores_mentions :
    (parse_args "5" [uAlice]).2.1 = none ∧
      ¬ ((parse_args "5" [uAlice]).2.1 = some uAlice) := by decide

/-- Claim C3 (amended): when the first token parses as an integer `k`,
`history_count` is set to `k`, and `target_user` is set to the first mention
only when there is at least one FURTHER token and the mention list is
non-empty; otherwise it stays unset. -/
theorem parse_args_target_user_spec (prompt : String) (mentions : List User)
    (t : String) (ts : List String) (k : Int)
    (h : pytokens prompt = t :: ts) (hp : pyInt t = some k) :
    (parse_args prompt mentions).1 = k ∧
    (parse_args prompt mentions).2.1 =
      (if ts ≠ [] ∧ mentions ≠ [] then mentions.head? else none) := by
  constructor <;> simp [parse_args, h, hp]

/-- Witness for the amended C3 on the argument `"5 x"` with one mention. -/
theorem parse_args_target_user_spec_witness :
    pytokens "5 x" = "5" :: ["x"] ∧ pyInt "5" = some 5 ∧
      ((parse_args "5 x" [uAlice]).1 = 5 ∧
        (parse_args "5 x" [uAlice]).2.1 =
          (if (["x"] : List String) ≠ [] ∧ ([uAlice] : List User) ≠ [] then
            ([uAlice] : List User).head? else none)) :=
  ⟨by decide, by decide,
    parse_args_target_user_spec "5 x" [uAlice] "5" ["x"] 5 (by decide) (by decide)⟩

/-- Claim C4: at the failing input `"abc def"` with one mention, the parser
resolves `(20, first mention)` as claimed, but delivers NO correction notice:
in the source the non-numeric branch calls
`ctx.send("你輸入的不是數字，將自動總結最近 20 則消息。")` without `await`,
so the coroutine is discarded and the claimed one-line notice never reaches
the channel (third component `[]` = messages actually delivered). -/
theorem parse_args_nonnumeric_notice_never_delivered :
    parse_args "abc def" [uAlice] = (20, some uAlice, []) := by decide

/-! ### Claim theorems: transcript formatting -/

theorem intercalate_singleton (s x : String) : String.intercalate s [x] = x := rfl

/-- Claim C2, counterexample: `mEmbNoDesc` carries one embed with NO
description plus one attachment.  The claim mandates the attachment branch
(no embed has a non-empty description), i.e. the line
`"alice: 附件: http://x"` with `"http://x"` appended; but the code tests only
`if msg.embeds:` and takes the embed branch, producing the bare label line
`"alice: 嵌入內容: "` and dropping the URL. -/
theorem format_embed_branch_on_empty_descriptions :
    format_messages [mEmbNoDesc] = ("alice: 嵌入內容: ", []) ∧
      ¬ (format_messages [mEmbNoDesc] =
          ("alice: 附件: http://x", ["http://x"])) := by decide

/-- Claim C2 (amended): the embed branch is taken exactly when the message
has one or more embeds — with the comma-joined list covering only the
non-empty descriptions, possibly none; otherwise, with one or more
attachments, the attachment branch is taken; otherwise the line content is
the raw message text unchanged. -/
theorem format_branch_trichotomy (msg : Message) :
    (msg.embeds ≠ [] →
        format_messages [msg] =
          (msg.author.name ++ ": " ++
              ("嵌入內容: " ++
                String.intercalate ", " (truthyDescriptions msg.embeds)),
            truthyDescriptions msg.embeds)) ∧
    (msg.embeds = [] → msg.attachments ≠ [] →
        format_messages [msg] =
          (msg.author.name ++ ": " ++
              ("附件: " ++
                String.intercalate ", " (msg.attachments.map Attachment.url)),
            msg.attachments.map Attachment.url)) ∧
    (msg.embeds = [] → msg.attachments = [] →
        format_messages [msg] = (msg.author.name ++ ": " ++ msg.content, [])) := by
  refine ⟨?_, ?_, ?_⟩
  · intro he
    simp [format_messages, msg_content_refs, he, intercalate_singleton]
  · intro he ha
    simp [format_messages, msg_content_refs, he, ha, intercalate_singleton]
  · intro he ha
    simp [format_messages, msg_content_refs, he, ha, intercalate_singleton]

/-- Witness for the amended C2 on an embed-bearing, an attachment-bearing,
and a plain message. -/
theorem format_branch_trichotomy_witness :
    (mEmbD.embeds ≠ [] ∧
      format_messages [mEmbD] =
        (mEmbD.author.name ++ ": " ++
            ("嵌入內容: " ++
              String.intercalate ", " (truthyDescriptions mEmbD.embeds)),
          truthyDescriptions mEmbD.embeds)) ∧
    (mAtt.embeds = [] ∧ mAtt.attachments ≠ [] ∧
      format_messages [mAtt] =
        (mAtt.author.name ++ ": " ++
            ("附件: " ++
              String.intercalate ", " (mAtt.attachments.map Attachment.url)),
          mAtt.attachments.map Attachment.url)) ∧
    (mAlice1.embeds = [] ∧ mAlice1.attachments = [] ∧
      format_messages [mAlice1] =
        (mAlice1.author.name ++ ": " ++ mAlice1.content, [])) :=
  ⟨⟨by decide, (format_branch_trichotomy mEmbD).1 (by decide)⟩,
   ⟨by decide, by decide,
     (format_branch_trichotomy mAtt).2.1 (by decide) (by decide)⟩,
   ⟨by decide, by decide,
     (format_branch_trichotomy mAlice1).2.2 (by decide) (by decide)⟩⟩

/-- Claim C9: formatting a message whose single embed has description
`"desc1"` yields the line `"<author>: 嵌入內容: desc1"` and appends
`"desc1"` to attachments; formatting a message with attachment URL
`"http://x/y.png"` and no embeds yields `"<author>: 附件: http://x/y.png"`
and appends that URL. -/
theorem format_concrete_examples (a : User) (c : String)
    (atts : List Attachment) :
    format_messages [⟨a, c, [⟨some "desc1"⟩], atts⟩] =
        (a.name ++ ": 嵌入內容: desc1", ["desc1"]) ∧
    format_messages [⟨a, c, [], [⟨"http://x/y.png"⟩]⟩] =
        (a.name ++ ": 附件: http://x/y.png", ["http://x/y.png"]) := by
  constructor
  · have h1 : format_messages [⟨a, c, [⟨some "desc1"⟩], atts⟩] =
        (a.name ++ ": " ++ ("嵌入內容: " ++ String.intercalate ", " ["desc1"]),
          ["desc1"]) := by
      simp [format_messages, msg_content_refs, truthyDescriptions,
        intercalate_singleton]
    rw [h1, String.append_assoc]
    congr
  · have h2 : format_messages [⟨a, c, [], [⟨"http://x/y.png"⟩]⟩] =
        (a.name ++ ": " ++
            ("附件: " ++ String.intercalate ", " ["http://x/y.png"]),
          ["http://x/y.png"]) := by
      simp [format_messages, msg_content_refs, intercalate_singleton]
    rw [h2, String.append_assoc]
    congr

/-! ### Claim theorems: the top-level command handler -/

/-- Claim C7: formatting the empty message sequence yields the empty
transcript and empty attachments; and whenever the fetch returns no
messages, the handler sends exactly one empty-result reply — the
"找不到 <mention> 的相關訊息" variant when `target_user` is set, the
"沒有可供總結的訊息" variant otherwise — and returns without invoking the
LLM client (the reply is the same for every `llm`). -/
theorem empty_fetch_short_circuits :
    format_messages [] = ("", []) ∧
    (∀ (hist : List Message) (mentions : List User) (prompt : String)
        (llm : String → List String → Except String String) (u : User),
        (parse_args prompt mentions).2.1 = some u →
        fetch_messages hist (parse_args prompt mentions).1 (some u) = [] →
        SummaryBot.sum (Except.ok hist) mentions prompt llm =
          ["在此頻道中找不到 " ++ u.mention ++ " 的相關訊息。"]) ∧
    (∀ (hist : List Message) (mentions : List User) (prompt : String)
        (llm : String → List String → Except String String),
        (parse_args prompt mentions).2.1 = none →
        fetch_messages hist (parse_args prompt mentions).1 none = [] →
        SummaryBot.sum (Except.ok hist) mentions prompt llm =
          ["此頻道沒有可供總結的訊息。"]) := by
  refine ⟨rfl, ?_, ?_⟩
  · intro hist mentions prompt llm u hu hf
    simp [SummaryBot.sum, hu, hf]
  · intro hist mentions prompt llm hn hf
    simp [SummaryBot.sum, hn, hf]

/-- Witness for C7: an empty channel, once with a target user (`"5 x"` plus
a mention) and once without. -/
theorem empty_fetch_short_circuits_witness :
    ((parse_args "5 x" [uAlice]).2.1 = some uAlice ∧
      fetch_messages [] (parse_args "5 x" [uAlice]).1 (some uAlice) = [] ∧
      SummaryBot.sum (Except.ok []) [uAlice] "5 x"
          (fun _ _ => Except.ok "S") =
        ["在此頻道中找不到 " ++ uAlice.mention ++ " 的相關訊息。"]) ∧
    ((parse_args "" []).2.1 = none ∧
      fetch_messages [] (parse_args "" []).1 none = [] ∧
      SummaryBot.sum (Except.ok []) [] "" (fun _ _ => Except.ok "S") =
        ["此頻道沒有可供總結的訊息。"]) :=
  ⟨⟨by decide, by decide,
     empty_fetch_short_circuits.2.1 [] [uAlice] "5 x" _ uAlice
       (by decide) (by decide)⟩,
   ⟨by decide, by decide,
     empty_fetch_short_circuits.2.2 [] [] "" _ (by decide) (by decide)⟩⟩

/-- Claim C8: every failure of a pipeline stage (modelled: a chat-SDK error
during fetch, or an LLM-call error) is caught and answered with a single
reply `"發生錯誤：<description>"`; the handler never re-raises (it is a
total function into reply lists, and on EVERY input it sends exactly one
reply); on success it sends exactly one reply holding the LLM summary. -/
theorem sum_isolates_failures (mentions : List User) (prompt : String)
    (llm : String → List String → Except String String) :
    (∀ e, SummaryBot.sum (Except.error e) mentions prompt llm =
        ["發生錯誤：" ++ e]) ∧
    (∀ (hist msgs : List Message) (line : String) (atts : List String) e,
        fetch_messages hist (parse_args prompt mentions).1
            (parse_args prompt mentions).2.1 = msgs →
        msgs ≠ [] →
        format_messages msgs = (line, atts) →
        llm (create_summary_prompt (parse_args prompt mentions).1 line) atts =
          Except.error e →
        SummaryBot.sum (Except.ok hist) mentions prompt llm =
          ["發生錯誤：" ++ e]) ∧
    (∀ (hist msgs : List Message) (line : String) (atts : List String) s,
        fetch_messages hist (parse_args prompt mentions).1
            (parse_args prompt mentions).2.1 = msgs →
        msgs ≠ [] →
        format_messages msgs = (line, atts) →
        llm (create_summary_prompt (parse_args prompt mentions).1 line) atts =
          Except.ok s →
        SummaryBot.sum (Except.ok hist) mentions prompt llm = [s]) ∧
    (∀ ch, ∃ r, SummaryBot.sum ch mentions prompt llm = [r]) := by
  refine ⟨fun e => rfl, ?_, ?_, ?_⟩
  · intro hist msgs line atts e hf hne hfmt hllm
    simp [SummaryBot.sum, hf, hne, hfmt, hllm]
  · intro hist msgs line atts s hf hne hfmt hllm
    simp [SummaryBot.sum, hf, hne, hfmt, hllm]
  · intro ch
    match ch with
    | Except.error e => exact ⟨"發生錯誤：" ++ e, rfl⟩
    | Except.ok hist =>
      by_cases hemp :
          fetch_messages hist (parse_args prompt mentions).1
            (parse_args prompt mentions).2.1 = []
      · match htu : (parse_args prompt mentions).2.1 with
        | some u =>
          exact ⟨"在此頻道中找不到 " ++ u.mention ++ " 的相關訊息。",
            by simp [SummaryBot.sum, htu, htu ▸ hemp]⟩
        | none =>
          exact ⟨"此頻道沒有可供總結的訊息。",
            by simp [SummaryBot.sum, htu, htu ▸ hemp]⟩
      · match hllm : llm
            (create_summary_prompt (parse_args prompt mentions).1
              (format_messages
                (fetch_messages hist (parse_args prompt mentions).1
                  (parse_args prompt mentions).2.1)).1)
            (format_messages
                (fetch_messages hist (parse_args prompt mentions).1
                  (parse_args prompt mentions).2.1)).2 with
        | Except.ok s => exact ⟨s, by simp [SummaryBot.sum, hemp, hllm]⟩
        | Except.error e =>
          exact ⟨"發生錯誤：" ++ e, by simp [SummaryBot.sum, hemp, hllm]⟩

/-- Witness for C8: a transport failure, an LLM failure, and a success, all
on the one-message channel `[mAlice1]` with default arguments. -/
theorem sum_isolates_failures_witness :
    (SummaryBot.sum (Except.error "boom") [] ""
        (fun _ _ => Except.ok "SUM") = ["發生錯誤：" ++ "boom"]) ∧
    (SummaryBot.sum (Except.ok [mAlice1]) [] ""
        (fun _ _ => Except.error "down") = ["發生錯誤：" ++ "down"]) ∧
    (SummaryBot.sum (Except.ok [mAlice1]) [] ""
        (fun _ _ => Except.ok "SUM") = ["SUM"]) :=
  ⟨(sum_isolates_failures [] "" _).1 "boom",
   (sum_isolates_failures [] "" _).2.1 [mAlice1] [mAlice1] "alice: hello" []
     "down" (by decide) (by decide) (by decide) rfl,
   (sum_isolates_failures [] "" _).2.2.1 [mAlice1] [mAlice1] "alice: hello" []
     "SUM" (by decide) (by decide) (by decide) rfl⟩

end SummaryBot
